import Mathlib

/-!
# Path planning: trajectory algebra and intention enumeration

A verification development for `term3/P11-Path-Planning`:

* `src/path/trajectory.h` : class `Path::Trajectory` with the inline members
  `operator+` and `operator+=`, and the declarations of `size`, `push_back`
  and `erase`;
* `test/path/test_logic.cpp` : the expectations on
  `Path::Logic::GetIntentionsToEvaluate`.

Conventions of the embedding.

* `std::vector<T>` is a `List`; `v.insert(v.end(), w.begin(), w.end())` is `v ++ w`.
* The coordinates are `double` in the code.  The operations below only copy
  coordinates, so the coordinate type is a parameter `α`.
* The field `laneChangeStartIdx` is a 32-bit `int`, a `CInt`: an integer between
  `INT_MIN` and `INT_MAX`.  The only arithmetic is `size() + laneChangeStartIdx`; the
  stored value is the exact sum reduced to 32 bits in two's complement (`wrapInt`), so
  `1 + INT_MAX` is stored as `INT_MIN`.
* The entries of `targetLane` and the indices handed to `erase` are only copied and
  compared; they are `Int`.
-/

namespace Path

/-! ## Data model -/

namespace Logic

/-- Modelled from the spec: the enumeration `Path::Logic::Intention` is declared in
`logic.h`, which is not part of the sources at hand; the seven enumerators are the ones the
spec lists in its data model (and `test_logic.cpp` uses six of them by name). -/
inductive Intention where
  | KeepLane
  | PrepareLaneChangeLeft
  | PrepareLaneChangeRight
  | LaneChangeLeft
  | LaneChangeRight
  | TwoLaneChangesLeft
  | TwoLaneChangesRight
  deriving DecidableEq

/-- Modelled from the spec: the road constants `laneWidth` and `numLanes` come from
`constants.h`, which is not part of the sources at hand.  `laneWidth` and the lateral offsets
are `double` in the code; the model computes with exact rationals. -/
structure Constants where
  laneWidth : ℚ
  numLanes : Int

/-- Modelled from the spec: the lane of a lateral offset, `lane = floor(d / laneWidth)`
(the helper lives in `helpers.h`, which is not part of the sources at hand). -/
def laneOf (constants : Constants) (d : ℚ) : Int := ⌊d / constants.laneWidth⌋

/-- Modelled from the spec: `Logic::GetIntentionsToEvaluate` is defined in `logic.h` /
`logic.cpp`, which are not part of the sources at hand (only `test_logic.cpp` is).  The
rules are those of the spec, section 4.1, applied in the order they are listed. -/
def GetIntentionsToEvaluate (constants : Constants) (d : ℚ) : List Intention :=
  let intentions := [Intention.KeepLane]
  let lane := laneOf constants d
  let intentions :=
    if lane > 0 then
      intentions ++ [Intention.LaneChangeLeft, Intention.PrepareLaneChangeLeft]
    else intentions
  let intentions :=
    if lane < constants.numLanes - 1 then
      intentions ++ [Intention.LaneChangeRight, Intention.PrepareLaneChangeRight]
    else intentions
  let intentions :=
    if lane ≥ 2 then intentions ++ [Intention.TwoLaneChangesLeft] else intentions
  let intentions :=
    if lane ≤ constants.numLanes - 3 then intentions ++ [Intention.TwoLaneChangesRight]
    else intentions
  intentions

end Logic

/-- The value of `INT_MIN` for a 32-bit `int` (`<climits>`). -/
def INT_MIN : Int := -2147483648

/-- The value of `INT_MAX` for a 32-bit `int` (`<climits>`). -/
def INT_MAX : Int := 2147483647

/-- The value that 32-bit two's complement arithmetic stores in an `int` for the exact
result `z`: the integer between `INT_MIN` and `INT_MAX` that differs from `z` by a multiple
of `2^32`. -/
def wrapInt (z : Int) : Int := (z + 2147483648) % 4294967296 - 2147483648

/-- A value of the C++ type `int`. -/
structure CInt where
  val : Int
  min_le : INT_MIN ≤ val
  le_max : val ≤ INT_MAX
  deriving DecidableEq

namespace CInt

/-- The `int` that holds the exact result `z` after reduction to 32 bits. -/
def ofInt (z : Int) : CInt :=
  { val := wrapInt z
    min_le := by unfold wrapInt INT_MIN; omega
    le_max := by unfold wrapInt INT_MAX; omega }

end CInt

/-- The macro `#define NO_LANE_CHANGE_START_IDX (INT_MIN)`. -/
def NO_LANE_CHANGE_START_IDX : CInt :=
  { val := INT_MIN, min_le := by decide, le_max := by decide }

/-- The fields of `class Trajectory`, in the order of declaration. -/
structure Trajectory (α : Type) where
  x : List α
  y : List α
  intention : List Logic.Intention
  targetLane : List Int
  laneChangeStartIdx : CInt
  deriving DecidableEq

namespace Trajectory

variable {α : Type}

/-- Modelled from the spec: `int size() const` is only declared in `trajectory.h`
("Provides the number of coordinates in the trajectory"); by the spec all four sequences
have the length `size()`, and the model reads it off `x`. -/
def size (self : Trajectory α) : Int := (self.x.length : Int)

/-- The empty trajectory: no waypoints, `laneChangeStartIdx` unset. -/
def empty : Trajectory α :=
  { x := [], y := [], intention := [], targetLane := [],
    laneChangeStartIdx := NO_LANE_CHANGE_START_IDX }

/-- The member `Trajectory operator+(const Trajectory &other) const`, statement by
statement: the copy of `*this`, the guarded re-basing of the index, the four `insert`s.
The sum `result.size() + other.laneChangeStartIdx` is an `int`: the exact sum reduced to
32 bits. -/
def operator_plus (self other : Trajectory α) : Trajectory α :=
  let result := self
  let result :=
    if other.laneChangeStartIdx ≠ NO_LANE_CHANGE_START_IDX then
      { result with
        laneChangeStartIdx := CInt.ofInt (result.size + other.laneChangeStartIdx.val) }
    else result
  let result := { result with x := result.x ++ other.x }
  let result := { result with y := result.y ++ other.y }
  let result := { result with intention := result.intention ++ other.intention }
  let result := { result with targetLane := result.targetLane ++ other.targetLane }
  result

/-- The member `void operator+=(const Trajectory &other)`: a step on the pair of objects
(`*this`, `other`); `other` is a `const` reference to a different object and is handed
back as it came.  The sum `size() + other.laneChangeStartIdx` is an `int`, as in
`operator+`. -/
def operator_plus_assign (state : Trajectory α × Trajectory α) : Trajectory α × Trajectory α :=
  let self := state.1
  let other := state.2
  let laneChangeStartIdx :=
    if other.laneChangeStartIdx ≠ NO_LANE_CHANGE_START_IDX then
      CInt.ofInt (self.size + other.laneChangeStartIdx.val)
    else self.laneChangeStartIdx
  let x := self.x ++ other.x
  let y := self.y ++ other.y
  let intention := self.intention ++ other.intention
  let targetLane := self.targetLane ++ other.targetLane
  ({ x := x, y := y, intention := intention, targetLane := targetLane,
     laneChangeStartIdx := laneChangeStartIdx }, other)

/-- The four sequences have the same length. -/
def SameLength (self : Trajectory α) : Prop :=
  self.y.length = self.x.length ∧ self.intention.length = self.x.length ∧
    self.targetLane.length = self.x.length

/-- The invariant of the data model: four sequences of the same length, and
`laneChangeStartIdx` either the sentinel or an index below `size()`. -/
def Valid (self : Trajectory α) : Prop :=
  self.SameLength ∧
    (self.laneChangeStartIdx = NO_LANE_CHANGE_START_IDX ∨
      (0 ≤ self.laneChangeStartIdx.val ∧ self.laneChangeStartIdx.val < self.size))

instance (self : Trajectory α) : Decidable self.SameLength := by
  unfold SameLength; infer_instance

instance (self : Trajectory α) : Decidable self.Valid := by
  unfold Valid; infer_instance

/-- Modelled from the spec: the failure `InvalidRange` of section 7, raised by `erase` on
out-of-bounds indices (the body of `erase` is not part of the sources at hand). -/
inductive Error where
  | InvalidRange
  deriving DecidableEq

/-- Modelled from the spec: `void push_back(double x_, double y_, Logic::Intention
intention_, int targetLane_)` is only declared in `trajectory.h`; by the spec it appends one
waypoint, extending all four sequences by one. -/
def push_back (self : Trajectory α) (x_ y_ : α) (intention_ : Logic.Intention)
    (targetLane_ : Int) : Trajectory α :=
  { self with
    x := self.x ++ [x_]
    y := self.y ++ [y_]
    intention := self.intention ++ [intention_]
    targetLane := self.targetLane ++ [targetLane_] }

/-- What `v.erase(v.begin() + first, v.begin() + last)` leaves of a vector. -/
def eraseRange {β : Type} (v : List β) (first last : Nat) : List β :=
  v.take first ++ v.drop last

/-- Modelled from the spec: `void erase(int startIdx, int endIdx)` is only declared in
`trajectory.h` (the range is inclusive); by the spec it removes those waypoints from all
four sequences under the constraint `0 ≤ startIdx ≤ endIdx < size()`, and an out-of-bounds
range fails fast. -/
def erase (self : Trajectory α) (startIdx endIdx : Int) : Except Error (Trajectory α) :=
  if 0 ≤ startIdx ∧ startIdx ≤ endIdx ∧ endIdx < self.size then
    let first := startIdx.toNat
    let last := (endIdx + 1).toNat
    .ok { self with
          x := eraseRange self.x first last
          y := eraseRange self.y first last
          intention := eraseRange self.intention first last
          targetLane := eraseRange self.targetLane first last }
  else .error Error.InvalidRange

/-- One waypoint: the entries of the four sequences at one index. -/
structure Waypoint (α : Type) where
  x : α
  y : α
  intention : Logic.Intention
  targetLane : Int
  deriving DecidableEq

/-- The waypoint at index `idx`, when all four sequences have one. -/
def waypoint? (self : Trajectory α) (idx : Nat) : Option (Waypoint α) :=
  match self.x[idx]?, self.y[idx]?, self.intention[idx]?, self.targetLane[idx]? with
  | some x_, some y_, some intention_, some targetLane_ =>
      some { x := x_, y := y_, intention := intention_, targetLane := targetLane_ }
  | _, _, _, _ => none

/-- The waypoints at the indices `startIdx .. endIdx` (inclusive), in their order. -/
def waypointsInRange (self : Trajectory α) (startIdx endIdx : Int) : List (Waypoint α) :=
  (List.range' startIdx.toNat ((endIdx + 1).toNat - startIdx.toNat)).filterMap self.waypoint?

/-- A caller's loop `for (w : ws) t.push_back(w.x, w.y, w.intention, w.targetLane);`. -/
def push_back_all (self : Trajectory α) (ws : List (Waypoint α)) : Trajectory α :=
  ws.foldl (fun t w => t.push_back w.x w.y w.intention w.targetLane) self

/-- The round trip of the spec, section 8: remember the waypoints `startIdx .. endIdx`,
`erase(startIdx, endIdx)`, then `push_back` the remembered waypoints in their order. -/
def erase_then_push_back (self : Trajectory α) (startIdx endIdx : Int) :
    Except Error (Trajectory α) :=
  let removed := self.waypointsInRange startIdx endIdx
  match self.erase startIdx endIdx with
  | .ok erased => .ok (erased.push_back_all removed)
  | .error e => .error e

end Trajectory

/-! ## Sample road and trajectories -/

/-- A road of three lanes, each 4 m wide. -/
def sampleRoad : Logic.Constants := { laneWidth := 4, numLanes := 3 }

/-- Two waypoints in lane 1, no lane change. -/
def sampleKeep : Trajectory Int :=
  { x := [1, 2], y := [5, 6],
    intention := [Logic.Intention.KeepLane, Logic.Intention.KeepLane],
    targetLane := [1, 1],
    laneChangeStartIdx := NO_LANE_CHANGE_START_IDX }

/-- Three waypoints; a change to lane 0 starts at index 1. -/
def sampleChange : Trajectory Int :=
  { x := [3, 4, 5], y := [7, 8, 9],
    intention := [Logic.Intention.KeepLane, Logic.Intention.LaneChangeLeft,
      Logic.Intention.LaneChangeLeft],
    targetLane := [1, 0, 0],
    laneChangeStartIdx := CInt.ofInt 1 }

/-- Three waypoints; a change to lane 0 starts at index 2. -/
def sampleLate : Trajectory Int :=
  { x := [3, 4, 5], y := [7, 8, 9],
    intention := [Logic.Intention.KeepLane, Logic.Intention.KeepLane,
      Logic.Intention.LaneChangeLeft],
    targetLane := [1, 1, 0],
    laneChangeStartIdx := CInt.ofInt 2 }

/-- One waypoint at which a change to lane 2 starts. -/
def sampleStart : Trajectory Int :=
  { x := [6], y := [10],
    intention := [Logic.Intention.LaneChangeRight],
    targetLane := [2],
    laneChangeStartIdx := CInt.ofInt 0 }

/-- One waypoint; the field `laneChangeStartIdx` holds `INT_MAX`. -/
def sampleMax : Trajectory Int :=
  { x := [6], y := [10],
    intention := [Logic.Intention.LaneChangeRight],
    targetLane := [2],
    laneChangeStartIdx := CInt.ofInt 2147483647 }

/-- A trajectory of `n` equal waypoints in lane 1, no lane change. -/
def longTrajectory (n : Nat) : Trajectory Int :=
  { x := List.replicate n 0, y := List.replicate n 0,
    intention := List.replicate n Logic.Intention.KeepLane,
    targetLane := List.replicate n 1,
    laneChangeStartIdx := NO_LANE_CHANGE_START_IDX }

/-! ## Concatenation -/

section Concatenation

variable {α : Type}

open Trajectory

theorem operator_plus_x (A B : Trajectory α) : (A.operator_plus B).x = A.x ++ B.x := by
  unfold operator_plus; split <;> rfl

theorem operator_plus_y (A B : Trajectory α) : (A.operator_plus B).y = A.y ++ B.y := by
  unfold operator_plus; split <;> rfl

theorem operator_plus_intention (A B : Trajectory α) :
    (A.operator_plus B).intention = A.intention ++ B.intention := by
  unfold operator_plus; split <;> rfl

theorem operator_plus_targetLane (A B : Trajectory α) :
    (A.operator_plus B).targetLane = A.targetLane ++ B.targetLane := by
  unfold operator_plus; split <;> rfl

theorem operator_plus_idx_set (A B : Trajectory α)
    (h : B.laneChangeStartIdx ≠ NO_LANE_CHANGE_START_IDX) :
    (A.operator_plus B).laneChangeStartIdx =
      CInt.ofInt (A.size + B.laneChangeStartIdx.val) := by
  unfold operator_plus; split
  · rfl
  · contradiction

theorem operator_plus_idx_unset (A B : Trajectory α)
    (h : B.laneChangeStartIdx = NO_LANE_CHANGE_START_IDX) :
    (A.operator_plus B).laneChangeStartIdx = A.laneChangeStartIdx := by
  unfold operator_plus; split
  · contradiction
  · rfl

theorem operator_plus_size (A B : Trajectory α) :
    (A.operator_plus B).size = A.size + B.size := by
  simp [size, operator_plus_x]

theorem size_nonneg (A : Trajectory α) : 0 ≤ A.size := by
  simp [size]

/-- An exact result inside the range of `int` is stored unchanged. -/
theorem wrapInt_of_fits (z : Int) (hlo : INT_MIN ≤ z) (hhi : z ≤ INT_MAX) : wrapInt z = z := by
  unfold INT_MIN at hlo
  unfold INT_MAX at hhi
  unfold wrapInt
  omega

theorem ofInt_val_of_fits (z : Int) (hlo : 0 ≤ z) (hhi : z ≤ INT_MAX) :
    (CInt.ofInt z).val = z :=
  wrapInt_of_fits z (le_trans (by decide) hlo) hhi

/-- Two `int`s with the same value are the same `int`. -/
theorem cint_ext {a b : CInt} (h : a.val = b.val) : a = b := by
  cases a; cases b; simp_all

theorem ofInt_val_self (a : CInt) : CInt.ofInt a.val = a :=
  cint_ext (wrapInt_of_fits a.val a.min_le a.le_max)

/-- An `int` that is not negative is not the sentinel. -/
theorem ne_sentinel_of_nonneg (a : CInt) (h : 0 ≤ a.val) : a ≠ NO_LANE_CHANGE_START_IDX := by
  intro heq
  rw [heq] at h
  exact absurd h (by decide)

theorem longTrajectory_size (n : Nat) : (longTrajectory n).size = (n : Int) := by
  simp [longTrajectory, size]

theorem longTrajectory_valid (n : Nat) : (longTrajectory n).Valid := by
  refine ⟨⟨?_, ?_, ?_⟩, Or.inl rfl⟩ <;> simp [longTrajectory]

/-- Two trajectories with the same five fields are the same trajectory. -/
theorem trajectory_ext {A B : Trajectory α} (hx : A.x = B.x) (hy : A.y = B.y)
    (hi : A.intention = B.intention) (ht : A.targetLane = B.targetLane)
    (hl : A.laneChangeStartIdx = B.laneChangeStartIdx) : A = B := by
  cases A; cases B; simp_all

/-- C1 as stated fails: `sampleStart` has one waypoint and `sampleMax` carries the index
`INT_MAX`; the 32-bit sum `1 + INT_MAX` is stored as `INT_MIN`, which is not the exact sum
2147483648 and is the sentinel. -/
theorem operator_plus_concatenates_counterexample :
    sampleMax.laneChangeStartIdx ≠ NO_LANE_CHANGE_START_IDX ∧
    sampleStart.size + sampleMax.laneChangeStartIdx.val = 2147483648 ∧
    (sampleStart.operator_plus sampleMax).laneChangeStartIdx.val = -2147483648 ∧
    (sampleStart.operator_plus sampleMax).laneChangeStartIdx.val ≠
      sampleStart.size + sampleMax.laneChangeStartIdx.val ∧
    (sampleStart.operator_plus sampleMax).laneChangeStartIdx = NO_LANE_CHANGE_START_IDX := by
  decide

/-- C1, amended: for every pair of trajectories `A`, `B`, the sequences `x`, `y`,
`intention` and `targetLane` of `A + B` are those of `A` followed by those of `B`, and
whenever `B.laneChangeStartIdx` is not the sentinel and `A.size() + B.laneChangeStartIdx`
does not exceed `INT_MAX`, `(A + B).laneChangeStartIdx` is `A.size() + B.laneChangeStartIdx`. -/
theorem operator_plus_concatenates (A B : Trajectory α) :
    (A.operator_plus B).x = A.x ++ B.x ∧
    (A.operator_plus B).y = A.y ++ B.y ∧
    (A.operator_plus B).intention = A.intention ++ B.intention ∧
    (A.operator_plus B).targetLane = A.targetLane ++ B.targetLane ∧
    (B.laneChangeStartIdx ≠ NO_LANE_CHANGE_START_IDX →
      A.size + B.laneChangeStartIdx.val ≤ INT_MAX →
      (A.operator_plus B).laneChangeStartIdx.val = A.size + B.laneChangeStartIdx.val) := by
  refine ⟨operator_plus_x A B, operator_plus_y A B, operator_plus_intention A B,
    operator_plus_targetLane A B, ?_⟩
  intro hset hfit
  rw [operator_plus_idx_set A B hset]
  have hA := size_nonneg A
  have hB := B.laneChangeStartIdx.min_le
  exact wrapInt_of_fits _ (by omega) hfit

/-- C1 (amended) at `sampleKeep + sampleChange`: the index 1 of the second operand
becomes 3. -/
theorem operator_plus_concatenates_witness :
    sampleChange.laneChangeStartIdx ≠ NO_LANE_CHANGE_START_IDX ∧
    sampleKeep.size + sampleChange.laneChangeStartIdx.val ≤ INT_MAX ∧
    (sampleKeep.operator_plus sampleChange).x = [1, 2, 3, 4, 5] ∧
    (sampleKeep.operator_plus sampleChange).laneChangeStartIdx.val =
      sampleKeep.size + sampleChange.laneChangeStartIdx.val :=
  ⟨by decide, by decide, (operator_plus_concatenates sampleKeep sampleChange).1,
    (operator_plus_concatenates sampleKeep sampleChange).2.2.2.2 (by decide) (by decide)⟩

/-- C2 as stated fails: `sampleKeep` has no lane change start, yet
`sampleChange + sampleKeep` has one, the index 1 of `sampleChange`. -/
theorem operator_plus_unset_counterexample :
    sampleKeep.laneChangeStartIdx = NO_LANE_CHANGE_START_IDX ∧
    (sampleChange.operator_plus sampleKeep).laneChangeStartIdx.val = 1 ∧
    (sampleChange.operator_plus sampleKeep).laneChangeStartIdx ≠ NO_LANE_CHANGE_START_IDX := by
  decide

/-- C2, amended: for every pair of trajectories `A`, `B` in which `B.laneChangeStartIdx` is
the sentinel, `(A + B).laneChangeStartIdx` is `A.laneChangeStartIdx`; so it is the sentinel
exactly when `A.laneChangeStartIdx` is. -/
theorem operator_plus_unset_keeps_left (A B : Trajectory α)
    (h : B.laneChangeStartIdx = NO_LANE_CHANGE_START_IDX) :
    (A.operator_plus B).laneChangeStartIdx = A.laneChangeStartIdx ∧
    ((A.operator_plus B).laneChangeStartIdx = NO_LANE_CHANGE_START_IDX ↔
      A.laneChangeStartIdx = NO_LANE_CHANGE_START_IDX) := by
  have hl := operator_plus_idx_unset A B h
  exact ⟨hl, by rw [hl]⟩

/-- C2 (amended) at `sampleChange + sampleKeep`: the index stays 1. -/
theorem operator_plus_unset_keeps_left_witness :
    sampleKeep.laneChangeStartIdx = NO_LANE_CHANGE_START_IDX ∧
    (sampleChange.operator_plus sampleKeep).laneChangeStartIdx =
      sampleChange.laneChangeStartIdx :=
  ⟨by decide, (operator_plus_unset_keeps_left sampleChange sampleKeep (by decide)).1⟩

/-- C3 as stated fails once `B + C` has more than `INT_MAX` waypoints: with `A` of one
waypoint, `B` of `INT_MAX` waypoints and `C = sampleChange` (index 1), all three valid,
`B + C` stores `INT_MAX + 1` as the sentinel, so `A + (B + C)` keeps the index 0 of `A`,
while `(A + B) + C` stores `1 + INT_MAX + 1` as `-2147483647`. -/
theorem operator_plus_assoc_counterexample :
    sampleStart.Valid ∧ (longTrajectory 2147483647).Valid ∧ sampleChange.Valid ∧
    (longTrajectory 2147483647).size = INT_MAX ∧
    ((sampleStart.operator_plus (longTrajectory 2147483647)).operator_plus
      sampleChange).laneChangeStartIdx.val = -2147483647 ∧
    (sampleStart.operator_plus ((longTrajectory 2147483647).operator_plus
      sampleChange)).laneChangeStartIdx.val = 0 ∧
    ((sampleStart.operator_plus (longTrajectory 2147483647)).operator_plus
      sampleChange).laneChangeStartIdx ≠
    (sampleStart.operator_plus ((longTrajectory 2147483647).operator_plus
      sampleChange)).laneChangeStartIdx := by
  have hset : sampleChange.laneChangeStartIdx ≠ NO_LANE_CHANGE_START_IDX := by decide
  have hsize : (longTrajectory 2147483647).size = INT_MAX := by
    rw [longTrajectory_size]; decide
  have hleft : ((sampleStart.operator_plus (longTrajectory 2147483647)).operator_plus
      sampleChange).laneChangeStartIdx = CInt.ofInt (1 + 2147483647 + 1) := by
    rw [operator_plus_idx_set _ _ hset, operator_plus_size, hsize]; rfl
  have hinner : ((longTrajectory 2147483647).operator_plus sampleChange).laneChangeStartIdx =
      NO_LANE_CHANGE_START_IDX := by
    rw [operator_plus_idx_set _ _ hset, hsize]; decide
  have hright : (sampleStart.operator_plus ((longTrajectory 2147483647).operator_plus
      sampleChange)).laneChangeStartIdx = CInt.ofInt 0 := by
    rw [operator_plus_idx_unset _ _ hinner]; rfl
  refine ⟨by decide, longTrajectory_valid _, by decide, hsize, ?_, ?_, ?_⟩
  · rw [hleft]; decide
  · rw [hright]; decide
  · rw [hleft, hright]; decide

/-- C3, amended: concatenation is associative on trajectories `A`, `B`, `C` that satisfy
the invariant and for which `B.size() + C.size()` does not exceed `INT_MAX`:
`(A + B) + C` and `A + (B + C)` have the same `x`, `y`, `intention`, `targetLane` and the
same `laneChangeStartIdx`. -/
theorem operator_plus_assoc (A B C : Trajectory α) (_hA : A.Valid) (_hB : B.Valid)
    (hC : C.Valid) (hfit : B.size + C.size ≤ INT_MAX) :
    ((A.operator_plus B).operator_plus C).x = (A.operator_plus (B.operator_plus C)).x ∧
    ((A.operator_plus B).operator_plus C).y = (A.operator_plus (B.operator_plus C)).y ∧
    ((A.operator_plus B).operator_plus C).intention =
      (A.operator_plus (B.operator_plus C)).intention ∧
    ((A.operator_plus B).operator_plus C).targetLane =
      (A.operator_plus (B.operator_plus C)).targetLane ∧
    ((A.operator_plus B).operator_plus C).laneChangeStartIdx =
      (A.operator_plus (B.operator_plus C)).laneChangeStartIdx := by
  refine ⟨?_, ?_, ?_, ?_, ?_⟩
  · simp only [operator_plus_x, List.append_assoc]
  · simp only [operator_plus_y, List.append_assoc]
  · simp only [operator_plus_intention, List.append_assoc]
  · simp only [operator_plus_targetLane, List.append_assoc]
  · by_cases hc : C.laneChangeStartIdx = NO_LANE_CHANGE_START_IDX
    · -- `C` carries no index: both sides are what `A + B` computes
      rw [operator_plus_idx_unset _ C hc]
      have hbc : (B.operator_plus C).laneChangeStartIdx = B.laneChangeStartIdx :=
        operator_plus_idx_unset B C hc
      by_cases hb : B.laneChangeStartIdx = NO_LANE_CHANGE_START_IDX
      · rw [operator_plus_idx_unset A B hb, operator_plus_idx_unset A _ (hbc.trans hb)]
      · rw [operator_plus_idx_set A B hb,
          operator_plus_idx_set A _ (by rw [hbc]; exact hb), hbc]
    · -- the index of `C` is re-based once by `size(A + B)`, or by `size B` and then `size A`
      have hbc : (B.operator_plus C).laneChangeStartIdx =
          CInt.ofInt (B.size + C.laneChangeStartIdx.val) :=
        operator_plus_idx_set B C hc
      have hc0 : 0 ≤ C.laneChangeStartIdx.val ∧ C.laneChangeStartIdx.val < C.size := by
        rcases hC.2 with h | h
        · exact absurd h hc
        · exact h
      have hBs := size_nonneg B
      have hval : (B.operator_plus C).laneChangeStartIdx.val =
          B.size + C.laneChangeStartIdx.val := by
        rw [hbc]
        exact ofInt_val_of_fits _ (by omega) (by omega)
      have hset : (B.operator_plus C).laneChangeStartIdx ≠ NO_LANE_CHANGE_START_IDX :=
        ne_sentinel_of_nonneg _ (by rw [hval]; omega)
      rw [operator_plus_idx_set _ C hc, operator_plus_idx_set A _ hset, hval,
        operator_plus_size, Int.add_assoc]

/-- C3 (amended) at the three sample trajectories: both groupings put the index at 5. -/
theorem operator_plus_assoc_witness :
    sampleKeep.Valid ∧ sampleChange.Valid ∧ sampleStart.Valid ∧
    sampleChange.size + sampleStart.size ≤ INT_MAX ∧
    ((sampleKeep.operator_plus sampleChange).operator_plus sampleStart).laneChangeStartIdx =
      (sampleKeep.operator_plus (sampleChange.operator_plus sampleStart)).laneChangeStartIdx :=
  ⟨by decide, by decide, by decide, by decide,
    (operator_plus_assoc sampleKeep sampleChange sampleStart
      (by decide) (by decide) (by decide) (by decide)).2.2.2.2⟩

/-- C7 as stated fails once `A + B` has more than `INT_MAX` waypoints: with `A` of
`INT_MAX` waypoints and `B = sampleLate` (three waypoints, index 2), both valid, the index
of `A + B` is `INT_MAX + 2` stored as `-2147483647`: neither the sentinel nor an index of
`A + B`. -/
theorem operator_plus_valid_counterexample :
    (longTrajectory 2147483647).Valid ∧ sampleLate.Valid ∧
    (longTrajectory 2147483647).size = INT_MAX ∧
    ((longTrajectory 2147483647).operator_plus sampleLate).laneChangeStartIdx.val =
      -2147483647 ∧
    ((longTrajectory 2147483647).operator_plus sampleLate).laneChangeStartIdx ≠
      NO_LANE_CHANGE_START_IDX ∧
    ¬ (0 ≤ ((longTrajectory 2147483647).operator_plus sampleLate).laneChangeStartIdx.val) ∧
    ¬ ((longTrajectory 2147483647).operator_plus sampleLate).Valid := by
  have hset : sampleLate.laneChangeStartIdx ≠ NO_LANE_CHANGE_START_IDX := by decide
  have hsize : (longTrajectory 2147483647).size = INT_MAX := by
    rw [longTrajectory_size]; decide
  have hidx : ((longTrajectory 2147483647).operator_plus sampleLate).laneChangeStartIdx =
      CInt.ofInt (2147483647 + 2) := by
    rw [operator_plus_idx_set _ _ hset, hsize]; rfl
  have hne : CInt.ofInt (2147483647 + 2) ≠ NO_LANE_CHANGE_START_IDX := by decide
  have hneg : ¬ (0 ≤ (CInt.ofInt (2147483647 + 2)).val) := by decide
  refine ⟨longTrajectory_valid _, by decide, hsize, ?_, ?_, ?_, ?_⟩
  · rw [hidx]; decide
  · rw [hidx]; exact hne
  · rw [hidx]; exact hneg
  · intro hvalid
    rcases hvalid.2 with h | ⟨h, _⟩
    · rw [hidx] at h; exact hne h
    · rw [hidx] at h; exact hneg h

/-- C7, amended: concatenation preserves the invariant when the result has at most
`INT_MAX` waypoints: for valid `A` and `B` with `A.size() + B.size() ≤ INT_MAX`, the four
sequences of `A + B` all have the length `A.size() + B.size()`, and
`(A + B).laneChangeStartIdx` is the sentinel or an index `i` with
`0 ≤ i < (A + B).size()`. -/
theorem operator_plus_valid (A B : Trajectory α) (hA : A.Valid) (hB : B.Valid)
    (hfit : A.size + B.size ≤ INT_MAX) :
    ((A.operator_plus B).x.length : Int) = A.size + B.size ∧
    ((A.operator_plus B).y.length : Int) = A.size + B.size ∧
    ((A.operator_plus B).intention.length : Int) = A.size + B.size ∧
    ((A.operator_plus B).targetLane.length : Int) = A.size + B.size ∧
    ((A.operator_plus B).laneChangeStartIdx = NO_LANE_CHANGE_START_IDX ∨
      (0 ≤ (A.operator_plus B).laneChangeStartIdx.val ∧
        (A.operator_plus B).laneChangeStartIdx.val < (A.operator_plus B).size)) ∧
    (A.operator_plus B).Valid := by
  obtain ⟨⟨hAy, hAi, hAt⟩, hAl⟩ := hA
  obtain ⟨⟨hBy, hBi, hBt⟩, hBl⟩ := hB
  have hidx : (A.operator_plus B).laneChangeStartIdx = NO_LANE_CHANGE_START_IDX ∨
      (0 ≤ (A.operator_plus B).laneChangeStartIdx.val ∧
        (A.operator_plus B).laneChangeStartIdx.val < (A.operator_plus B).size) := by
    have hAs := size_nonneg A
    have hBs := size_nonneg B
    rw [operator_plus_size]
    by_cases hb : B.laneChangeStartIdx = NO_LANE_CHANGE_START_IDX
    · rw [operator_plus_idx_unset A B hb]
      rcases hAl with h | ⟨h0, h1⟩
      · exact Or.inl h
      · exact Or.inr ⟨h0, by omega⟩
    · rw [operator_plus_idx_set A B hb]
      rcases hBl with h | ⟨h0, h1⟩
      · exact absurd h hb
      · rw [ofInt_val_of_fits _ (by omega) (by omega)]
        exact Or.inr ⟨by omega, by omega⟩
  refine ⟨?_, ?_, ?_, ?_, hidx, ⟨?_, ?_, ?_⟩, hidx⟩
  · simp [size, operator_plus_x]
  · simp [size, operator_plus_y, hAy, hBy]
  · simp [size, operator_plus_intention, hAi, hBi]
  · simp [size, operator_plus_targetLane, hAt, hBt]
  · simp [operator_plus_x, operator_plus_y, hAy, hBy]
  · simp [operator_plus_x, operator_plus_intention, hAi, hBi]
  · simp [operator_plus_x, operator_plus_targetLane, hAt, hBt]

/-- C7 (amended) at `sampleKeep + sampleChange`: five waypoints, index 3. -/
theorem operator_plus_valid_witness :
    sampleKeep.Valid ∧ sampleChange.Valid ∧ sampleKeep.size + sampleChange.size ≤ INT_MAX ∧
    (sampleKeep.operator_plus sampleChange).Valid :=
  ⟨by decide, by decide, by decide,
    (operator_plus_valid sampleKeep sampleChange (by decide) (by decide)
      (by decide)).2.2.2.2.2⟩

/-- C9: `operator+=` agrees with `operator+`: after `A += B` the object `A` is the value
`A + B` computed from the original `A` (all five fields), and `B` is unchanged. -/
theorem operator_plus_assign_eq_operator_plus (A B : Trajectory α) :
    (operator_plus_assign (A, B)).1 = A.operator_plus B ∧
    (operator_plus_assign (A, B)).2 = B := by
  refine ⟨?_, rfl⟩
  apply trajectory_ext
  · rw [operator_plus_x]; rfl
  · rw [operator_plus_y]; rfl
  · rw [operator_plus_intention]; rfl
  · rw [operator_plus_targetLane]; rfl
  · by_cases hb : B.laneChangeStartIdx = NO_LANE_CHANGE_START_IDX
    · rw [operator_plus_idx_unset A B hb]
      simp [operator_plus_assign, hb]
    · rw [operator_plus_idx_set A B hb]
      simp [operator_plus_assign, hb]

/-- C10: the empty trajectory is a two-sided identity of concatenation: `A + E = A` and
`E + A = A`, the value of `laneChangeStartIdx` included. -/
theorem operator_plus_empty (A : Trajectory α) :
    A.operator_plus Trajectory.empty = A ∧ Trajectory.empty.operator_plus A = A := by
  constructor
  · apply trajectory_ext
    · rw [operator_plus_x]; simp [Trajectory.empty]
    · rw [operator_plus_y]; simp [Trajectory.empty]
    · rw [operator_plus_intention]; simp [Trajectory.empty]
    · rw [operator_plus_targetLane]; simp [Trajectory.empty]
    · exact operator_plus_idx_unset A _ rfl
  · apply trajectory_ext
    · rw [operator_plus_x]; simp [Trajectory.empty]
    · rw [operator_plus_y]; simp [Trajectory.empty]
    · rw [operator_plus_intention]; simp [Trajectory.empty]
    · rw [operator_plus_targetLane]; simp [Trajectory.empty]
    · by_cases ha : A.laneChangeStartIdx = NO_LANE_CHANGE_START_IDX
      · rw [operator_plus_idx_unset _ A ha, ha]; rfl
      · rw [operator_plus_idx_set _ A ha]
        have hzero : (Trajectory.empty : Trajectory α).size = 0 := rfl
        rw [hzero, Int.zero_add]
        exact ofInt_val_self _

end Concatenation

/-! ## Intentions to evaluate -/

section Intentions

open Logic

/-- An offset between `k * laneWidth` (included) and `(k + 1) * laneWidth` is in lane `k`. -/
theorem laneOf_eq (constants : Constants) (d : ℚ) (k : Int)
    (hlo : (k : ℚ) * constants.laneWidth ≤ d)
    (hhi : d < ((k : ℚ) + 1) * constants.laneWidth) : laneOf constants d = k := by
  have hw : 0 < constants.laneWidth := by nlinarith
  unfold laneOf
  rw [Int.floor_eq_iff]
  constructor
  · rw [le_div_iff₀ hw]; exact hlo
  · rw [div_lt_iff₀ hw]; exact hhi

/-- C4: on a 3-lane road, for every offset `d` with `0 < d < laneWidth`,
`GetIntentionsToEvaluate(d)` has no duplicates and its elements are exactly `KeepLane`,
`LaneChangeRight`, `PrepareLaneChangeRight` and `TwoLaneChangesRight`; its size is 4. -/
theorem intentions_leftmost_lane (constants : Constants) (d : ℚ)
    (hlanes : constants.numLanes = 3) (hlo : 0 < d) (hhi : d < constants.laneWidth) :
    (GetIntentionsToEvaluate constants d).Nodup ∧
    (∀ i : Intention, i ∈ GetIntentionsToEvaluate constants d ↔
      (i = Intention.KeepLane ∨ i = Intention.LaneChangeRight ∨
        i = Intention.PrepareLaneChangeRight ∨ i = Intention.TwoLaneChangesRight)) ∧
    (GetIntentionsToEvaluate constants d).length = 4 := by
  have hlane : laneOf constants d = 0 :=
    laneOf_eq constants d 0 (by simpa using hlo.le) (by simpa using hhi)
  have hval : GetIntentionsToEvaluate constants d =
      [Intention.KeepLane, Intention.LaneChangeRight, Intention.PrepareLaneChangeRight,
        Intention.TwoLaneChangesRight] := by
    simp [GetIntentionsToEvaluate, hlane, hlanes]
  rw [hval]
  refine ⟨by decide, ?_, rfl⟩
  intro i
  cases i <;> simp

/-- C4 at the centre of lane 0 of `sampleRoad`, the offset of `test_logic.cpp`. -/
theorem intentions_leftmost_lane_witness :
    sampleRoad.numLanes = 3 ∧ (0 : ℚ) < 2 ∧ (2 : ℚ) < sampleRoad.laneWidth ∧
    (GetIntentionsToEvaluate sampleRoad 2).length = 4 :=
  ⟨rfl, by norm_num, by norm_num [sampleRoad],
    (intentions_leftmost_lane sampleRoad 2 rfl (by norm_num)
      (by norm_num [sampleRoad])).2.2⟩

/-- C5: on a 3-lane road, for every offset `d` with `laneWidth ≤ d < 2 * laneWidth`,
`GetIntentionsToEvaluate(d)` has no duplicates and its elements are exactly `KeepLane`,
`LaneChangeLeft`, `LaneChangeRight`, `PrepareLaneChangeLeft` and `PrepareLaneChangeRight`;
in particular neither `TwoLaneChangesLeft` nor `TwoLaneChangesRight` is among them. -/
theorem intentions_middle_lane (constants : Constants) (d : ℚ)
    (hlanes : constants.numLanes = 3) (hlo : constants.laneWidth ≤ d)
    (hhi : d < 2 * constants.laneWidth) :
    (GetIntentionsToEvaluate constants d).Nodup ∧
    (∀ i : Intention, i ∈ GetIntentionsToEvaluate constants d ↔
      (i = Intention.KeepLane ∨ i = Intention.LaneChangeLeft ∨
        i = Intention.LaneChangeRight ∨ i = Intention.PrepareLaneChangeLeft ∨
        i = Intention.PrepareLaneChangeRight)) ∧
    Intention.TwoLaneChangesLeft ∉ GetIntentionsToEvaluate constants d ∧
    Intention.TwoLaneChangesRight ∉ GetIntentionsToEvaluate constants d := by
  have hlane : laneOf constants d = 1 :=
    laneOf_eq constants d 1 (by simpa using hlo) (by norm_num; linarith)
  have hval : GetIntentionsToEvaluate constants d =
      [Intention.KeepLane, Intention.LaneChangeLeft, Intention.PrepareLaneChangeLeft,
        Intention.LaneChangeRight, Intention.PrepareLaneChangeRight] := by
    simp [GetIntentionsToEvaluate, hlane, hlanes]
  rw [hval]
  refine ⟨by decide, ?_, by decide, by decide⟩
  intro i
  cases i <;> simp

/-- C5 at the centre of lane 1 of `sampleRoad`, the offset of `test_logic.cpp`. -/
theorem intentions_middle_lane_witness :
    sampleRoad.numLanes = 3 ∧ sampleRoad.laneWidth ≤ 6 ∧ (6 : ℚ) < 2 * sampleRoad.laneWidth ∧
    (GetIntentionsToEvaluate sampleRoad 6).Nodup :=
  ⟨rfl, by norm_num [sampleRoad], by norm_num [sampleRoad],
    (intentions_middle_lane sampleRoad 6 rfl (by norm_num [sampleRoad])
      (by norm_num [sampleRoad])).1⟩

/-- C6: on a 3-lane road, for every offset `d` with `2 * laneWidth ≤ d < 3 * laneWidth`,
`GetIntentionsToEvaluate(d)` has no duplicates and its elements are exactly `KeepLane`,
`LaneChangeLeft`, `PrepareLaneChangeLeft` and `TwoLaneChangesLeft`; its size is 4. -/
theorem intentions_rightmost_lane (constants : Constants) (d : ℚ)
    (hlanes : constants.numLanes = 3) (hlo : 2 * constants.laneWidth ≤ d)
    (hhi : d < 3 * constants.laneWidth) :
    (GetIntentionsToEvaluate constants d).Nodup ∧
    (∀ i : Intention, i ∈ GetIntentionsToEvaluate constants d ↔
      (i = Intention.KeepLane ∨ i = Intention.LaneChangeLeft ∨
        i = Intention.PrepareLaneChangeLeft ∨ i = Intention.TwoLaneChangesLeft)) ∧
    (GetIntentionsToEvaluate constants d).length = 4 := by
  have hlane : laneOf constants d = 2 :=
    laneOf_eq constants d 2 (by simpa using hlo) (by norm_num; linarith)
  have hval : GetIntentionsToEvaluate constants d =
      [Intention.KeepLane, Intention.LaneChangeLeft, Intention.PrepareLaneChangeLeft,
        Intention.TwoLaneChangesLeft] := by
    simp [GetIntentionsToEvaluate, hlane, hlanes]
  rw [hval]
  refine ⟨by decide, ?_, rfl⟩
  intro i
  cases i <;> simp

/-- C6 at the centre of lane 2 of `sampleRoad`, the offset of `test_logic.cpp`. -/
theorem intentions_rightmost_lane_witness :
    sampleRoad.numLanes = 3 ∧ 2 * sampleRoad.laneWidth ≤ 10 ∧
    (10 : ℚ) < 3 * sampleRoad.laneWidth ∧
    (GetIntentionsToEvaluate sampleRoad 10).length = 4 :=
  ⟨rfl, by norm_num [sampleRoad], by norm_num [sampleRoad],
    (intentions_rightmost_lane sampleRoad 10 rfl (by norm_num [sampleRoad])
      (by norm_num [sampleRoad])).2.2⟩

end Intentions

/-! ## Erasing a range and pushing it back -/

section EraseRoundTrip

variable {α : Type}

open Trajectory

theorem push_back_all_fields (ws : List (Waypoint α)) (T : Trajectory α) :
    (T.push_back_all ws).x = T.x ++ ws.map Waypoint.x ∧
    (T.push_back_all ws).y = T.y ++ ws.map Waypoint.y ∧
    (T.push_back_all ws).intention = T.intention ++ ws.map Waypoint.intention ∧
    (T.push_back_all ws).targetLane = T.targetLane ++ ws.map Waypoint.targetLane ∧
    (T.push_back_all ws).laneChangeStartIdx = T.laneChangeStartIdx := by
  induction ws generalizing T with
  | nil => simp [push_back_all]
  | cons w ws ih =>
    have h := ih (T.push_back w.x w.y w.intention w.targetLane)
    simp only [push_back_all, List.foldl_cons] at h ⊢
    simpa [push_back] using h

/-- The slice of a vector that starts at index `s` and has `n` elements. -/
theorem take_drop_succ {β : Type} (l : List β) (s n : Nat) (h : s < l.length) :
    (l.drop s).take (n + 1) = l[s] :: (l.drop (s + 1)).take n := by
  rw [List.drop_eq_getElem_cons h, List.take_succ_cons]

theorem waypoints_fields (T : Trajectory α) (hT : T.SameLength) (n s : Nat)
    (h : s + n ≤ T.x.length) :
    ((List.range' s n).filterMap T.waypoint?).map Waypoint.x = (T.x.drop s).take n ∧
    ((List.range' s n).filterMap T.waypoint?).map Waypoint.y = (T.y.drop s).take n ∧
    ((List.range' s n).filterMap T.waypoint?).map Waypoint.intention =
      (T.intention.drop s).take n ∧
    ((List.range' s n).filterMap T.waypoint?).map Waypoint.targetLane =
      (T.targetLane.drop s).take n := by
  obtain ⟨hy, hi, ht⟩ := hT
  induction n generalizing s with
  | zero => simp
  | succ n ih =>
    have hx : s < T.x.length := by omega
    have hy1 : s < T.y.length := by omega
    have hi1 : s < T.intention.length := by omega
    have ht1 : s < T.targetLane.length := by omega
    have hw : T.waypoint? s =
        some (Waypoint.mk (T.x[s]) (T.y[s]) (T.intention[s]) (T.targetLane[s])) := by
      simp [waypoint?, List.getElem?_eq_getElem, hx, hy1, hi1, ht1]
    obtain ⟨ihx, ihy, ihi, iht⟩ := ih (s + 1) (by omega)
    rw [List.range'_succ, List.filterMap_cons_some hw]
    simp only [List.map_cons]
    rw [ihx, ihy, ihi, iht, take_drop_succ _ s n hx, take_drop_succ _ s n hy1,
      take_drop_succ _ s n hi1, take_drop_succ _ s n ht1]
    exact ⟨rfl, rfl, rfl, rfl⟩

/-- What the round trip leaves in general: the waypoints before the range, then those
after it, then the range itself. -/
theorem erase_then_push_back_fields (T : Trajectory α) (i j : Int) (hT : T.SameLength)
    (h0 : 0 ≤ i) (hij : i ≤ j) (hj : j < T.size) :
    ∃ T1 : Trajectory α, T.erase_then_push_back i j = .ok T1 ∧
      T1.x = T.x.take i.toNat ++ T.x.drop (j + 1).toNat ++
        (T.x.drop i.toNat).take ((j + 1).toNat - i.toNat) ∧
      T1.y = T.y.take i.toNat ++ T.y.drop (j + 1).toNat ++
        (T.y.drop i.toNat).take ((j + 1).toNat - i.toNat) ∧
      T1.intention = T.intention.take i.toNat ++ T.intention.drop (j + 1).toNat ++
        (T.intention.drop i.toNat).take ((j + 1).toNat - i.toNat) ∧
      T1.targetLane = T.targetLane.take i.toNat ++ T.targetLane.drop (j + 1).toNat ++
        (T.targetLane.drop i.toNat).take ((j + 1).toNat - i.toNat) := by
  have hrange : i.toNat + ((j + 1).toNat - i.toNat) ≤ T.x.length := by
    unfold size at hj; omega
  obtain ⟨wx, wy, wi, wt⟩ := waypoints_fields T hT ((j + 1).toNat - i.toNat) i.toNat hrange
  have hguard : 0 ≤ i ∧ i ≤ j ∧ j < T.size := ⟨h0, hij, hj⟩
  have herase : T.erase i j = .ok
      { T with
        x := eraseRange T.x i.toNat (j + 1).toNat
        y := eraseRange T.y i.toNat (j + 1).toNat
        intention := eraseRange T.intention i.toNat (j + 1).toNat
        targetLane := eraseRange T.targetLane i.toNat (j + 1).toNat } := by
    simp only [erase, if_pos hguard]
  refine ⟨Trajectory.push_back_all
      { T with
        x := eraseRange T.x i.toNat (j + 1).toNat
        y := eraseRange T.y i.toNat (j + 1).toNat
        intention := eraseRange T.intention i.toNat (j + 1).toNat
        targetLane := eraseRange T.targetLane i.toNat (j + 1).toNat }
      (T.waypointsInRange i j), ?_, ?_, ?_, ?_, ?_⟩
  · simp only [erase_then_push_back, herase]
  · rw [(push_back_all_fields _ _).1]
    simp only [waypointsInRange, eraseRange, wx]
  · rw [(push_back_all_fields _ _).2.1]
    simp only [waypointsInRange, eraseRange, wy]
  · rw [(push_back_all_fields _ _).2.2.1]
    simp only [waypointsInRange, eraseRange, wi]
  · rw [(push_back_all_fields _ _).2.2.2.1]
    simp only [waypointsInRange, eraseRange, wt]

theorem take_append_suffix {β : Type} (l : List β) (a b n : Nat) (hb : l.length ≤ b)
    (hn : l.length ≤ a + n) : l.take a ++ l.drop b ++ (l.drop a).take n = l := by
  have hrest : (l.drop a).take n = l.drop a :=
    List.take_of_length_le (by rw [List.length_drop]; omega)
  rw [List.drop_eq_nil_of_le hb, List.append_nil, hrest, List.take_append_drop]

/-- C8 as stated fails: erasing waypoint 0 of the three of `sampleChange` and pushing it
back puts it last, `x` becomes `[4, 5, 3]` instead of `[3, 4, 5]`. -/
theorem erase_then_push_back_counterexample :
    sampleChange.Valid ∧ (0 : Int) ≤ 0 ∧ (0 : Int) < sampleChange.size ∧
    ∃ T1 : Trajectory Int, sampleChange.erase_then_push_back 0 0 = .ok T1 ∧
      T1.x = [4, 5, 3] ∧ T1.x ≠ sampleChange.x :=
  ⟨by decide, by decide, by decide, _, rfl, by decide, by decide⟩

/-- C8, amended: for every trajectory `T` with four sequences of the same length and all
indices `i`, `j` with `0 ≤ i ≤ j = T.size() - 1` (the range runs to the last waypoint),
`erase(i, j)` succeeds, and pushing the removed waypoints back in their order restores
`x`, `y`, `intention` and `targetLane` exactly. -/
theorem erase_suffix_then_push_back (T : Trajectory α) (i j : Int) (hT : T.SameLength)
    (h0 : 0 ≤ i) (hij : i ≤ j) (hj : j = T.size - 1) :
    ∃ T1 : Trajectory α, T.erase_then_push_back i j = .ok T1 ∧
      T1.x = T.x ∧ T1.y = T.y ∧ T1.intention = T.intention ∧
      T1.targetLane = T.targetLane := by
  obtain ⟨T1, hok, hx, hy, hi, ht⟩ :=
    erase_then_push_back_fields T i j hT h0 hij (by omega)
  obtain ⟨ly, li, lt⟩ := hT
  have hlen : (j + 1).toNat = T.x.length := by unfold size at hj; omega
  have hle : i.toNat ≤ T.x.length := by omega
  refine ⟨T1, hok, ?_, ?_, ?_, ?_⟩
  · rw [hx]; exact take_append_suffix _ _ _ _ (by omega) (by omega)
  · rw [hy]; exact take_append_suffix _ _ _ _ (by omega) (by omega)
  · rw [hi]; exact take_append_suffix _ _ _ _ (by omega) (by omega)
  · rw [ht]; exact take_append_suffix _ _ _ _ (by omega) (by omega)

/-- C8 (amended) at `sampleChange`, erasing the waypoints 1 and 2. -/
theorem erase_suffix_then_push_back_witness :
    sampleChange.SameLength ∧ (0 : Int) ≤ 1 ∧ (1 : Int) ≤ 2 ∧ (2 : Int) = sampleChange.size - 1 ∧
    ∃ T1 : Trajectory Int, sampleChange.erase_then_push_back 1 2 = .ok T1 ∧
      T1.x = sampleChange.x ∧ T1.y = sampleChange.y ∧
      T1.intention = sampleChange.intention ∧ T1.targetLane = sampleChange.targetLane :=
  ⟨by decide, by decide, by decide, by decide,
    erase_suffix_then_push_back sampleChange 1 2 (by decide) (by decide) (by decide)
      (by decide)⟩

end EraseRoundTrip

end Path
